import Mathlib

/-!
Verification development for the reMarkable 2 article organizer
(`src/rm2_organizer.py`, class `RemarkableOrganizer`).

The Python source is shallowly embedded: the per-document metadata dictionaries
become the `Meta` structure, the on-device document store (the collection of
`*.metadata` files) becomes an association list `Store`, the persisted reading
state (`reading_state.json`) becomes the association list `RState`, and the
heuristic analyzer `analyze_reading_progress` becomes a pure function from its
inputs (metadata, content descriptor, page data, prior observation record,
current time) to an `Analysis` record.  Machine floats (`time.time()`, the
completion ratio, thresholds) are embedded as exact rationals; epoch-millisecond
timestamps are integers.

Three methods of the source file lost their `def` headers (their bodies survive
as unreachable code after `return` statements): `find_folder_id`
(lines 234-240), `organize_by_date_if_enabled` (lines 361-393), and
`ensure_folders_exist` (called at line 431, body absent entirely).  The first
two are translated from their surviving bodies; `ensure_folders_exist` is
modelled from the spec (see its doc comment).
-/

/-- One document's metadata dictionary (one `*.metadata` file), with the keys
the organizer reads or writes.  `typ` is the `"type"` key
(`"DocumentType"` / `"CollectionType"`); timestamps are epoch milliseconds. -/
structure Meta where
  typ : String
  visibleName : String
  parent : String
  deleted : Bool
  pinned : Bool
  synced : Bool
  modified : Bool
  metadatamodified : Bool
  version : Nat
  lastModified : Int
  lastOpened : Int
deriving DecidableEq

/-- One annotation layer of a page's metadata (`page_data['layers']` entry);
`strokes` / `highlights` record whether the corresponding keys are truthy
(non-empty). -/
structure Layer where
  strokes : Bool
  highlights : Bool
deriving DecidableEq

/-- One page's annotation descriptor, as returned by `get_document_pagedata`. -/
structure PageData where
  layers : List Layer
deriving DecidableEq

/-- A document's content descriptor (`*.content` file) as consumed by the
analyzer: the page list and the bookmark list.  `get_document_content`
returns `None` on any read or parse failure, and a falsy (empty) content
dictionary is treated as unavailable by `if content:`; both are embedded
as `none`. -/
structure ContentD where
  pages : List String
  bookmarks : List String
deriving DecidableEq

/-- One persisted observation record (`reading_state[doc_id]`, written at
lines 456-462 of the source). -/
structure ObsRecord where
  last_opened : Int
  reading_time : Int
  completion_ratio : ℚ
  has_annotations : Bool
  last_checked : Int
deriving DecidableEq

/-- The ephemeral result of `analyze_reading_progress` (the `analysis` dict). -/
structure Analysis where
  pages_read : Nat
  total_pages : Nat
  has_annotations : Bool
  has_bookmarks : Bool
  last_opened : Int
  reading_time : Int
  completion_ratio : ℚ
  likely_read : Bool
deriving DecidableEq

/-- The `reading_detection` section of the configuration. -/
structure ReadingDetectionCfg where
  enable_auto_move : Bool
  pages_threshold : ℚ
  time_threshold : Int
  annotation_indicates_read : Bool
  bookmark_indicates_progress : Bool
deriving DecidableEq

/-- The `archive_read_articles` section of the configuration. -/
structure ArchiveCfg where
  enable : Bool
  days_threshold : ℚ
deriving DecidableEq

/-- The organizer configuration (the keys the triage core consumes; the date
format string is abstracted into the `fmtDate` parameter of the pass). -/
structure Config where
  folders_to_read : String
  folders_read : String
  folders_archive : String
  source_patterns : List String
  file_age_threshold : ℚ
  organize_by_date : Bool
  reading_detection : ReadingDetectionCfg
  archive_read_articles : ArchiveCfg
deriving DecidableEq

/-- The default configuration built by `load_config` (lines 39-66). -/
def cfgDefault : Config where
  folders_to_read := "To Read"
  folders_read := "Read Articles"
  folders_archive := "Archived Articles"
  source_patterns := ["read on remarkable", "chrome extension", "web article"]
  file_age_threshold := 5
  organize_by_date := false
  reading_detection :=
    { enable_auto_move := true
      pages_threshold := 4/5
      time_threshold := 300
      annotation_indicates_read := true
      bookmark_indicates_progress := true }
  archive_read_articles := { enable := false, days_threshold := 30 }

/-- The document store: association list from document id to metadata
(the dict returned by `get_documents_metadata`, and likewise the set of
`*.metadata` files on disk). -/
abbrev Store := List (String × Meta)

/-- The persisted reading state: association list from document id to its
observation record. -/
abbrev RState := List (String × ObsRecord)

/-- First-match association-list lookup (Python `dict.get` / `in`). -/
def alookup {α : Type} : List (String × α) → String → Option α
  | [], _ => none
  | a :: t, k => if a.1 = k then some a.2 else alookup t k

/-- Replace the first entry with the given key, or append a new entry
(Python `d[k] = v`, and likewise writing the file `k.metadata`). -/
def upsert {α : Type} : List (String × α) → String → α → List (String × α)
  | [], k, v => [(k, v)]
  | a :: t, k, v => if a.1 = k then (k, v) :: t else a :: upsert t k v

/-- A page counts as annotated when some layer has strokes or highlights
(lines 180-187). -/
def annotatedPage (p : PageData) : Bool :=
  p.layers.any fun L => L.strokes || L.highlights

/-- The all-zero analysis dict initialised at lines 151-160. -/
def zeroAnalysis : Analysis where
  pages_read := 0
  total_pages := 0
  has_annotations := false
  has_bookmarks := false
  last_opened := 0
  reading_time := 0
  completion_ratio := 0
  likely_read := false

/-- The body of `analyze_reading_progress` (lines 162-228) on well-typed
inputs, after the `lastOpened` metadata field has been parsed.

* `total` / `hasB` / `annCount`: lines 167-187 (all under `if content:`);
* `pagesRead` and the ratio: lines 189-204 (under `if total_pages > 0`;
  the 24-hour fallback heuristic at lines 195-202);
* `rt`: the session accumulation at lines 206-216 (note the source clamps
  `min(3600, last_opened - prev_opened)` where both timestamps are epoch
  milliseconds);
* `lr`: the verdict at lines 218-228. -/
def analyzeBody (cfg : Config) (lastOpened : Int) (content : Option ContentD)
    (pages : List PageData) (prev : Option ObsRecord) (now : ℚ) : Analysis :=
  let total : Nat := match content with
    | none => 0
    | some c => c.pages.length
  let hasB : Bool := match content with
    | none => false
    | some c => decide (c.bookmarks ≠ [])
  let annCount : Nat := match content with
    | none => 0
    | some _ => (pages.filter annotatedPage).length
  let hasAnn : Bool := decide (0 < annCount)
  let pagesRead : Nat :=
    if 0 < total then
      if 0 < annCount then annCount
      else if now - (lastOpened : ℚ) / 1000 < 86400 then
        min total (max 1 (total / 4))
      else 0
    else 0
  let ratio : ℚ := if 0 < total then (pagesRead : ℚ) / (total : ℚ) else 0
  let rt : Int := match prev with
    | none => 0
    | some p =>
        if p.last_opened < lastOpened then
          p.reading_time + min 3600 (lastOpened - p.last_opened)
        else p.reading_time
  let lr : Bool :=
    decide (cfg.reading_detection.pages_threshold ≤ ratio) ||
      (cfg.reading_detection.annotation_indicates_read && hasAnn &&
        decide ((3 : ℚ) / 10 < ratio)) ||
      decide (cfg.reading_detection.time_threshold ≤ rt)
  { pages_read := pagesRead
    total_pages := total
    has_annotations := hasAnn
    has_bookmarks := hasB
    last_opened := lastOpened
    reading_time := rt
    completion_ratio := ratio
    likely_read := lr }

/-- The raw `lastOpened` metadata field before `int(...)` conversion:
either a value that parses to an integer, or malformed data on which
`int` raises. -/
inductive RawIntField where
  | intVal (n : Int)
  | malformed
deriving DecidableEq

/-- `int(metadata.get('lastOpened', 0))` at line 164: parses or raises. -/
def parseIntField : RawIntField → Except Unit Int
  | .intVal n => .ok n
  | .malformed => .error ()

/-- `analyze_reading_progress` (lines 149-233) including its `try/except`:
a `ValueError` from `int(...)` at line 164 is caught at line 230 and the
analysis dict — still holding only the zero defaults of lines 151-160 —
is returned. -/
def analyze_reading_progress (cfg : Config) (rawLastOpened : RawIntField)
    (content : Option ContentD) (pages : List PageData) (prev : Option ObsRecord)
    (now : ℚ) : Analysis :=
  match parseIntField rawLastOpened with
  | .error _ => zeroAnalysis
  | .ok lo => analyzeBody cfg lo content pages prev now

/-- The observation record the pass writes for a document from its fresh
analysis (lines 456-462). -/
def obsOf (a : Analysis) (lastChecked : Int) : ObsRecord where
  last_opened := a.last_opened
  reading_time := a.reading_time
  completion_ratio := a.completion_ratio
  has_annotations := a.has_annotations
  last_checked := lastChecked

/-- Matches `find_folder_id`'s search predicate (lines 235-239): a live
Collection whose display name equals the requested folder name. -/
def roleFolderPred (folderName : String) (e : String × Meta) : Bool :=
  e.2.typ = "CollectionType" && e.2.visibleName = folderName && !e.2.deleted

/-- `find_folder_id` (its body survives at lines 234-240, detached from its
lost `def` header): the id of the first live Collection whose `visibleName`
equals `folder_name`, scanning the metadata dict in order. -/
def find_folder_id (folderName : String) (metadata : Store) : Option String :=
  (metadata.find? (roleFolderPred folderName)).map Prod.fst

/-- The metadata `create_folder` writes for a fresh role folder
(lines 247-258). -/
def folderMeta (folderName : String) (nowMs : Int) : Meta where
  typ := "CollectionType"
  visibleName := folderName
  parent := ""
  deleted := false
  pinned := false
  synced := false
  modified := true
  metadatamodified := true
  version := 1
  lastModified := nowMs
  lastOpened := 0

/-- `create_folder` (lines 242-272): writes a fresh metadata file for a new
root-level Collection and returns its id.  The fresh uuid is passed in as
`freshId`. -/
def create_folder (folderName : String) (freshId : String) (nowMs : Int)
    (disk : Store) : String × Store :=
  (freshId, upsert disk freshId (folderMeta folderName nowMs))

/-- Modelled from the spec: `resolve_or_create(role)` of §4.3 — "look up a live
Collection whose display name matches the role's configured name ...; create
one (assigning a fresh unique identifier) if none exists".  The lookup is the
source's `find_folder_id`, the creation is the source's `create_folder`; only
the find-or-create combination itself (part of the absent
`ensure_folders_exist`) is taken from the spec's words. -/
def resolve_or_create (folderName : String) (freshId : String) (nowMs : Int)
    (s : Store) : String × Store :=
  match find_folder_id folderName s with
  | some i => (i, s)
  | none => create_folder folderName freshId nowMs s

/-- The number of live Collections named `folderName` in the store — the
quantity the "at most one folder per role" property speaks about. -/
def liveRoleCount (s : Store) (folderName : String) : Nat :=
  s.countP (roleFolderPred folderName)

/-- Lower-cased character list of a string (Python `str.lower()`). -/
def lowerChars (s : String) : List Char :=
  s.data.map Char.toLower

/-- The fixed web-indicator substrings of lines 292-294. -/
def webIndicators : List (List Char) :=
  ["http".data, "www.".data, ".com".data, ".org".data, ".net".data,
    "article".data, "blog".data]

/-- Substring containment on character lists (Python `needle in haystack`). -/
def containsSub (needle hay : List Char) : Bool :=
  decide (needle <:+: hay)

/-- `is_article_document` (lines 274-297): a non-deleted `DocumentType` whose
lower-cased display name contains a configured source pattern (lower-cased)
or one of the fixed web indicators. -/
def is_article_document (cfg : Config) (m : Meta) : Bool :=
  if m.typ ≠ "DocumentType" then false
  else if m.deleted then false
  else
    (cfg.source_patterns.any fun p =>
      containsSub (lowerChars p) (lowerChars m.visibleName)) ||
    (webIndicators.any fun w => containsSub w (lowerChars m.visibleName))

/-- `move_document_to_folder` (lines 299-318): read the document's metadata
from the passed dict, rewrite `parent`, bump `lastModified`, set the
`metadatamodified` / `modified` flags, and write the result back to disk.
A missing `doc_id` raises `KeyError`, which the method's own `except`
swallows, leaving the disk untouched. -/
def move_document_to_folder (docId folderId : String) (metadata : Store)
    (disk : Store) (nowMs : Int) : Store :=
  match alookup metadata docId with
  | none => disk
  | some m =>
      upsert disk docId
        { m with
          parent := folderId
          lastModified := nowMs
          metadatamodified := true
          modified := true }

/-- The folder roles of the transition table. -/
inductive FolderRole where
  | to_read
  | read
  | archive
deriving DecidableEq

/-- The configured display name of a role (the `folders` config section). -/
def roleName (cfg : Config) : FolderRole → String
  | .to_read => cfg.folders_to_read
  | .read => cfg.folders_read
  | .archive => cfg.folders_archive

/-- A document's current logical location as classified by
`get_document_current_folder`. -/
inductive Loc where
  | root
  | inRole (r : FolderRole)
  | other
deriving DecidableEq

/-- `get_document_current_folder` (lines 320-337): `root` when the parent is
empty, otherwise the first configured role (in `to_read`, `read`, `archive`
order) whose resolved folder id equals the parent, else `other`.  Returns
`none` when the document is absent from the dict. -/
def get_document_current_folder (docId : String) (metadata : Store)
    (cfg : Config) : Option Loc :=
  match alookup metadata docId with
  | none => none
  | some m =>
      if m.parent = "" then some Loc.root
      else if find_folder_id cfg.folders_to_read metadata = some m.parent then
        some (Loc.inRole FolderRole.to_read)
      else if find_folder_id cfg.folders_read metadata = some m.parent then
        some (Loc.inRole FolderRole.read)
      else if find_folder_id cfg.folders_archive metadata = some m.parent then
        some (Loc.inRole FolderRole.archive)
      else some Loc.other

/-- `should_move_to_read_folder` (lines 339-344). -/
def should_move_to_read_folder (cfg : Config) (a : Analysis) : Bool :=
  if !cfg.reading_detection.enable_auto_move then false
  else a.likely_read

/-- `should_archive_document` (lines 346-360): archiving enabled, the analysis
says likely read, and at least `days_threshold` days have elapsed since
`last_opened`. -/
def should_archive_document (cfg : Config) (a : Analysis) (now : ℚ) : Bool :=
  if !cfg.archive_read_articles.enable then false
  else if !a.likely_read then false
  else
    decide (cfg.archive_read_articles.days_threshold ≤
      (now - (a.last_opened : ℚ) / 1000) / 86400)

/-- The metadata `create_date_folder` writes for a fresh dated sub-Collection
(lines 395-423), parented under the role folder. -/
def dateFolderMeta (dateStr parentId : String) (nowMs : Int) : Meta where
  typ := "CollectionType"
  visibleName := dateStr
  parent := parentId
  deleted := false
  pinned := false
  synced := false
  modified := true
  metadatamodified := true
  version := 1
  lastModified := nowMs
  lastOpened := 0

/-- `create_date_folder` (lines 395-423): like `create_folder`, but nested
under `parentId` and named by the date string. -/
def create_date_folder (dateStr parentId freshId : String) (nowMs : Int)
    (disk : Store) : String × Store :=
  (freshId, upsert disk freshId (dateFolderMeta dateStr parentId nowMs))

/-- The search of lines 374-384: the first live Collection named `dateStr`
whose parent is the role folder. -/
def findDateFolder (dateStr parentId : String) (disk : Store) : Option String :=
  (disk.find? fun e =>
    e.2.typ = "CollectionType" && e.2.visibleName = dateStr &&
      e.2.parent = parentId && !e.2.deleted).map Prod.fst

/-- Context of one pass: the configuration, the metadata snapshot taken at the
start of the pass (`metadata` in `process_new_articles`), the resolved role
folder ids, the document-store read-outs (`get_document_content` /
`get_document_pagedata`, already folded over their own error handling), the
date formatter (`datetime.strftime`, abstracted), the uuid supply, and the two
clock read-outs (`time.time()` in seconds, and the epoch-millisecond stamps
written into metadata). -/
structure PassCtx where
  cfg : Config
  snap : Store
  roleMap : FolderRole → String
  contentOf : String → Option ContentD
  pagesOf : String → List PageData
  fmtDate : Int → String
  nowDateStr : String
  fresh : Nat → String
  now : ℚ
  nowMs : Int

/-- The date string of lines 366-372: formatted from the document's
`lastModified` when non-zero, else from the current time. -/
def dateStrOf (C : PassCtx) (docMeta : Meta) : String :=
  if docMeta.lastModified ≠ 0 then C.fmtDate docMeta.lastModified
  else C.nowDateStr

/-- `organize_by_date_if_enabled` (its body survives at lines 361-393,
detached from its lost `def` header): when `organize_by_date` is off, the
role folder id is returned unchanged; otherwise the dated sub-folder is
found on the current disk (re-reading the store, line 375) or created,
consuming one fresh uuid. -/
def organize_by_date_if_enabled (C : PassCtx) (folderId : String)
    (docMeta : Meta) (disk : Store) (k : Nat) : String × Store × Nat :=
  if !C.cfg.organize_by_date then (folderId, disk, k)
  else
    match findDateFolder (dateStrOf C docMeta) folderId disk with
    | some i => (i, disk, k)
    | none =>
        ((create_date_folder (dateStrOf C docMeta) folderId (C.fresh k)
            C.nowMs disk).1,
          (create_date_folder (dateStrOf C docMeta) folderId (C.fresh k)
            C.nowMs disk).2,
          k + 1)

/-- One role resolution inside `ensure_folders_exist`: find the role folder in
the pass's metadata snapshot, else create it on disk with the next fresh uuid.
The `Bool` reports whether a creation happened (to advance the uuid supply). -/
def resolveRole (folderName : String) (snap disk : Store) (freshId : String)
    (nowMs : Int) : String × Store × Bool :=
  match find_folder_id folderName snap with
  | some i => (i, disk, false)
  | none =>
      let cr := create_folder folderName freshId nowMs disk
      (cr.1, cr.2, true)

/-- Modelled from the spec: `ensure_folders_exist` is called at line 431 but
its definition is absent from the source file.  Per §4.3 ("look up a live
Collection whose display name matches the role's configured name ...; create
one (assigning a fresh unique identifier) if none exists") it resolves each
of the three roles with find-or-create against the pass's metadata snapshot,
creating missing folders on disk, and returns the role-to-id mapping. -/
def ensureFoldersExist (cfg : Config) (snap disk : Store) (fresh : Nat → String)
    (k : Nat) (nowMs : Int) : (FolderRole → String) × Store × Nat :=
  let r1 := resolveRole cfg.folders_to_read snap disk (fresh k) nowMs
  let k1 := if r1.2.2 then k + 1 else k
  let r2 := resolveRole cfg.folders_read snap r1.2.1 (fresh k1) nowMs
  let k2 := if r2.2.2 then k1 + 1 else k1
  let r3 := resolveRole cfg.folders_archive snap r2.2.1 (fresh k2) nowMs
  let k3 := if r3.2.2 then k2 + 1 else k2
  (fun r => match r with
    | .to_read => r1.1
    | .read => r2.1
    | .archive => r3.1,
   r3.2.1, k3)

/-- The mutable state of the per-document loop of `process_new_articles`:
the disk, the in-memory reading state, the in-memory `processed_files` set,
the uuid-supply position, the three counters, and the log of performed moves
(document id, destination folder id). -/
structure LoopState where
  disk : Store
  rs : RState
  processed : List String
  k : Nat
  pc : Nat
  mc : Nat
  ac : Nat
  moves : List (String × String)

/-- The transition decision of lines 469-487: compare the current location
with the in-memory processed set and the analysis, in the source's
`if`/`elif` priority order, yielding at most one target role. -/
def decideTarget (cfg : Config) (snap : Store) (processed : List String)
    (docId : String) (a : Analysis) (now : ℚ) : Option FolderRole :=
  match get_document_current_folder docId snap cfg with
  | some Loc.root =>
      if docId ∈ processed then none else some FolderRole.to_read
  | some (Loc.inRole FolderRole.to_read) =>
      if should_move_to_read_folder cfg a then some FolderRole.read else none
  | some (Loc.inRole FolderRole.read) =>
      if should_archive_document cfg a now then some FolderRole.archive
      else none
  | _ => none

/-- One iteration of the document loop of `process_new_articles`
(lines 443-500): skip non-articles and too-young documents, analyze, update
the reading state, decide and apply at most one transition. -/
def passStep (C : PassCtx) (S : LoopState) (e : String × Meta) : LoopState :=
  if !is_article_document C.cfg e.2 then S
  else if C.now - (e.2.lastModified : ℚ) / 1000 <
      C.cfg.file_age_threshold * 60 then S
  else
    let a := analyzeBody C.cfg e.2.lastOpened (C.contentOf e.1) (C.pagesOf e.1)
      (alookup S.rs e.1) C.now
    let rs' := upsert S.rs e.1 (obsOf a C.now.floor)
    match decideTarget C.cfg C.snap S.processed e.1 a C.now with
    | none => { S with rs := rs' }
    | some r =>
        let od := organize_by_date_if_enabled C (C.roleMap r) e.2 S.disk S.k
        { disk := move_document_to_folder e.1 od.1 C.snap od.2.1 C.nowMs
          rs := rs'
          processed :=
            if r = FolderRole.to_read then e.1 :: S.processed else S.processed
          k := od.2.2
          pc := if r = FolderRole.to_read then S.pc + 1 else S.pc
          mc := if r = FolderRole.read then S.mc + 1 else S.mc
          ac := if r = FolderRole.archive then S.ac + 1 else S.ac
          moves := S.moves ++ [(e.1, od.1)] }

/-- The outcome of one pass: the disk store, the end-of-loop in-memory reading
state, the reading state persisted by `save_reading_state` at line 503, the
in-memory processed set, the three aggregate counters, and the move log. -/
structure PassResult where
  disk : Store
  readingState : RState
  savedState : RState
  processedFiles : List String
  processedCount : Nat
  movedToReadCount : Nat
  archivedCount : Nat
  moves : List (String × String)

/-- The pass context assembled at the start of `process_new_articles`:
the snapshot is the store read at line 428, the role map comes from the
(spec-modelled) folder resolution at line 431. -/
def passCtxOf (cfg : Config) (disk0 : Store)
    (contentOf : String → Option ContentD) (pagesOf : String → List PageData)
    (fmtDate : Int → String) (nowDateStr : String) (fresh : Nat → String)
    (now : ℚ) (nowMs : Int) : PassCtx where
  cfg := cfg
  snap := disk0
  roleMap := (ensureFoldersExist cfg disk0 disk0 fresh 0 nowMs).1
  contentOf := contentOf
  pagesOf := pagesOf
  fmtDate := fmtDate
  nowDateStr := nowDateStr
  fresh := fresh
  now := now
  nowMs := nowMs

/-- `process_new_articles` (lines 425-512): snapshot the metadata, resolve the
role folders (via the spec-modelled `ensureFoldersExist`, which always
succeeds), loop once over every document, and finally persist the reading
state once.  The counters and the persisted state are surfaced in the
result. -/
def process_new_articles (cfg : Config) (disk0 : Store) (rs0 : RState)
    (processed0 : List String) (contentOf : String → Option ContentD)
    (pagesOf : String → List PageData) (fmtDate : Int → String)
    (nowDateStr : String) (fresh : Nat → String) (now : ℚ) (nowMs : Int) :
    PassResult :=
  let C := passCtxOf cfg disk0 contentOf pagesOf fmtDate nowDateStr fresh now
    nowMs
  let ens := ensureFoldersExist cfg disk0 disk0 fresh 0 nowMs
  let S0 : LoopState :=
    { disk := ens.2.1, rs := rs0, processed := processed0, k := ens.2.2
      pc := 0, mc := 0, ac := 0, moves := [] }
  let Sf := disk0.foldl (passStep C) S0
  { disk := Sf.disk
    readingState := Sf.rs
    savedState := Sf.rs
    processedFiles := Sf.processed
    processedCount := Sf.pc
    movedToReadCount := Sf.mc
    archivedCount := Sf.ac
    moves := Sf.moves }

/-- The eligibility gate of lines 443-450: an article-like, non-deleted
document whose age since last modification is at least the configured
threshold (in minutes). -/
def eligibleDoc (C : PassCtx) (e : String × Meta) : Bool :=
  is_article_document C.cfg e.2 &&
    !decide (C.now - (e.2.lastModified : ℚ) / 1000 <
      C.cfg.file_age_threshold * 60)

/-- The analysis a document receives during a pass, expressed against the
initial reading state (documents are keyed uniquely, so the in-loop state
updates of other documents cannot affect it). -/
def specAnalysisOf (C : PassCtx) (rs0 : RState) (e : String × Meta) : Analysis :=
  analyzeBody C.cfg e.2.lastOpened (C.contentOf e.1) (C.pagesOf e.1)
    (alookup rs0 e.1) C.now

/-- The transition a document undergoes during a pass, expressed against the
initial reading state and initial processed set. -/
def specTargetOf (C : PassCtx) (rs0 : RState) (processed0 : List String)
    (e : String × Meta) : Option FolderRole :=
  if eligibleDoc C e then
    decideTarget C.cfg C.snap processed0 e.1 (specAnalysisOf C rs0 e) C.now
  else none

/-- The reading state after processing a list of documents, expressed with
per-document records computed against the initial reading state. -/
def specRsFold (C : PassCtx) (rs0 : RState) (l : List (String × Meta))
    (rsInit : RState) : RState :=
  l.foldl
    (fun rs e =>
      if eligibleDoc C e then
        upsert rs e.1 (obsOf (specAnalysisOf C rs0 e) C.now.floor)
      else rs)
    rsInit

/-- Sample: an article-like document sitting at the store root. -/
def mArticle : Meta where
  typ := "DocumentType"
  visibleName := "www.example article"
  parent := ""
  deleted := false
  pinned := false
  synced := false
  modified := false
  metadatamodified := false
  version := 1
  lastModified := 0
  lastOpened := 0

/-- Sample: an article modified one second before a pass running at
`now = 1000` (so younger than any positive age threshold in minutes). -/
def mYoung : Meta := { mArticle with lastModified := 999000 }

/-- Sample: a plain stored document whose `modified` flag is `false`. -/
def mPlain : Meta where
  typ := "DocumentType"
  visibleName := "A"
  parent := ""
  deleted := false
  pinned := false
  synced := false
  modified := false
  metadatamodified := false
  version := 1
  lastModified := 10
  lastOpened := 20

/-- Sample: `mPlain` after being moved to folder `"F"` at time `99`. -/
def mPlainMoved : Meta :=
  { mPlain with
    parent := "F", lastModified := 99, metadatamodified := true
    modified := true }

/-- Sample two-document store. -/
def sW9 : Store := [("d", mPlain), ("e", mArticle)]

/-- Sample prior observation record with no accumulated reading time. -/
def obsZero : ObsRecord where
  last_opened := 0
  reading_time := 0
  completion_ratio := 0
  has_annotations := false
  last_checked := 0

/-- Sample prior observation record with 300 accumulated reading-time units. -/
def obsTime300 : ObsRecord := { obsZero with reading_time := 300 }

/-- Sample: a document parented in the `To Read` folder. -/
def docToRead : Meta := { mArticle with parent := "TR" }

/-- Sample snapshot holding the `To Read` folder and one document inside it. -/
def snapToRead : Store := [("TR", folderMeta "To Read" 0), ("d", docToRead)]

/-- Sample uuid supply (collision-free with the sample stores). -/
def freshConst : Nat → String := fun _ => "FRESH"

/-- Sample content reader: every content file unavailable. -/
def contentNone : String → Option ContentD := fun _ => none

/-- Sample page reader: no page data. -/
def pagesNone : String → List PageData := fun _ => []

/-- Sample date formatter. -/
def fmtConst : Int → String := fun _ => "1970-01-01"

/-- The frame property Claim C9 asserts of the move operation: every metadata
field other than `parent` and `lastModified` of the moved document is
unchanged. -/
def movePreservesOtherFields : Prop :=
  ∀ (s : Store) (docId folderId : String) (nowMs : Int) (m m' : Meta),
    alookup s docId = some m →
    alookup (move_document_to_folder docId folderId s s nowMs) docId = some m' →
    m'.visibleName = m.visibleName ∧ m'.typ = m.typ ∧ m'.deleted = m.deleted ∧
    m'.pinned = m.pinned ∧ m'.synced = m.synced ∧ m'.version = m.version ∧
    m'.lastOpened = m.lastOpened ∧ m'.modified = m.modified ∧
    m'.metadatamodified = m.metadatamodified

/-- The exclusivity property Claim C9 asserts: no core operation other than
move mutates the Document Store — in particular folder creation would have
to leave the store unchanged. -/
def moveIsOnlyStoreMutation : Prop :=
  ∀ (folderName freshId : String) (nowMs : Int) (s : Store),
    (create_folder folderName freshId nowMs s).2 = s

/-- Sample content descriptor with five pages and no bookmarks. -/
def contentFive : ContentD where
  pages := ["p1", "p2", "p3", "p4", "p5"]
  bookmarks := []

/-- Sample store holding a single root article. -/
def snapC1 : Store := [("d", mArticle)]

/-- Sample store holding a single too-young article. -/
def snapC7 : Store := [("y", mYoung)]

theorem alookup_upsert_self {α : Type} (l : List (String × α)) (k : String)
    (v : α) : alookup (upsert l k v) k = some v := by
  induction l with
  | nil => simp [upsert, alookup]
  | cons a t ih =>
    by_cases h : a.1 = k
    · simp [upsert, h, alookup]
    · simp [upsert, h, alookup, ih]

theorem alookup_upsert_ne {α : Type} (l : List (String × α)) (k k' : String)
    (v : α) (h : k' ≠ k) : alookup (upsert l k v) k' = alookup l k' := by
  induction l with
  | nil => simp [upsert, alookup, Ne.symm h]
  | cons a t ih =>
    by_cases ha : a.1 = k
    · subst ha
      simp [upsert, alookup, Ne.symm h]
    · simp only [upsert, if_neg ha, alookup]
      by_cases ha' : a.1 = k'
      · simp [ha']
      · simp [ha', ih]

theorem alookup_of_mem_nodup {α : Type} {l : List (String × α)} {k : String}
    {v : α} (hn : (l.map Prod.fst).Nodup) (hm : (k, v) ∈ l) :
    alookup l k = some v := by
  induction l with
  | nil => cases hm
  | cons a t ih =>
    rcases List.mem_cons.mp hm with h | h
    · simp [alookup, ← h]
    · have hk : k ∈ t.map Prod.fst := List.mem_map.mpr ⟨(k, v), h, rfl⟩
      have ha : a.1 ≠ k := by
        intro hq
        exact (List.nodup_cons.mp hn).1 (hq ▸ hk)
      simp [alookup, ha, ih (List.nodup_cons.mp hn).2 h]

theorem keyval_unique {α : Type} {l : List (String × α)} {k : String}
    {a b : α} (hn : (l.map Prod.fst).Nodup) (ha : (k, a) ∈ l)
    (hb : (k, b) ∈ l) : a = b := by
  have h1 := alookup_of_mem_nodup hn ha
  have h2 := alookup_of_mem_nodup hn hb
  rw [h1] at h2
  exact Option.some_injective _ h2

theorem find?_upsert_of_none {α : Type} (p : String × α → Bool)
    (l : List (String × α)) (k : String) (v : α)
    (hl : ∀ e ∈ l, p e = false) (hv : p (k, v) = true) :
    (upsert l k v).find? p = some (k, v) := by
  induction l with
  | nil => simp [upsert, List.find?, hv]
  | cons a t ih =>
    by_cases h : a.1 = k
    · simp [upsert, h, List.find?, hv]
    · have ha := hl a (List.mem_cons_self a t)
      simp only [upsert, if_neg h, List.find?, ha]
      exact ih fun e he => hl e (List.mem_cons_of_mem a he)

theorem countP_upsert_of_none {α : Type} (p : String × α → Bool)
    (l : List (String × α)) (k : String) (v : α)
    (hl : ∀ e ∈ l, p e = false) (hv : p (k, v) = true) :
    (upsert l k v).countP p = 1 := by
  induction l with
  | nil => simp [upsert, List.countP, List.countP.go, hv]
  | cons a t ih =>
    by_cases h : a.1 = k
    · have : ∀ e ∈ t, p e = false := fun e he => hl e (List.mem_cons_of_mem a he)
      have ht : t.countP p = 0 := by
        rw [List.countP_eq_zero]
        intro e he
        simp [this e he]
      simp [upsert, h, List.countP_cons, hv, ht]
    · have ha := hl a (List.mem_cons_self a t)
      have ih' := ih fun e he => hl e (List.mem_cons_of_mem a he)
      simp [upsert, h, List.countP_cons, ha, ih']

theorem foldl_fixed {α β : Type} (g : β → α → β) (b : β)
    (h : ∀ a, g b a = b) : ∀ l : List α, l.foldl g b = b
  | [] => rfl
  | a :: t => by rw [List.foldl_cons, h a]; exact foldl_fixed g b h t

theorem analyzeBody_last_opened (cfg : Config) (lastOpened : Int)
    (content : Option ContentD) (pages : List PageData) (prev : Option ObsRecord)
    (now : ℚ) :
    (analyzeBody cfg lastOpened content pages prev now).last_opened =
      lastOpened := by
  simp [analyzeBody]

theorem analyzeBody_reading_time_some (cfg : Config) (lastOpened : Int)
    (content : Option ContentD) (pages : List PageData) (p : ObsRecord)
    (now : ℚ) :
    (analyzeBody cfg lastOpened content pages (some p) now).reading_time =
      if p.last_opened < lastOpened then
        p.reading_time + min 3600 (lastOpened - p.last_opened)
      else p.reading_time := by
  simp [analyzeBody]

/-- Claim C4: `likely_read` is true iff the completion ratio meets
`pages_threshold`, or the annotation signal is enabled with annotations
present and ratio above 0.3, or `reading_time` meets `time_threshold`
(lines 218-228 of the source). -/
theorem c4_likely_read_iff (cfg : Config) (lastOpened : Int)
    (content : Option ContentD) (pages : List PageData)
    (prev : Option ObsRecord) (now : ℚ) :
    (analyzeBody cfg lastOpened content pages prev now).likely_read = true ↔
      (cfg.reading_detection.pages_threshold ≤
          (analyzeBody cfg lastOpened content pages prev now).completion_ratio ∨
        (cfg.reading_detection.annotation_indicates_read = true ∧
          (analyzeBody cfg lastOpened content pages prev now).has_annotations =
            true ∧
          (3 : ℚ) / 10 <
            (analyzeBody cfg lastOpened content pages prev now).completion_ratio) ∨
        cfg.reading_detection.time_threshold ≤
          (analyzeBody cfg lastOpened content pages prev now).reading_time) := by
  simp only [analyzeBody]
  simp only [Bool.or_eq_true, Bool.and_eq_true, decide_eq_true_eq]
  tauto

/-- Claim C5: with zero annotated pages, `pages_read` is
`max(1, total_pages // 4)` capped at `total_pages` when the document was
opened within the last 24 hours relative to analysis time, and `0` otherwise
(the fallback heuristic of lines 194-202; with no readable content both
expressions are `0`). -/
theorem c5_fallback_pages_read (cfg : Config) (lastOpened : Int)
    (content : Option ContentD) (pages : List PageData)
    (prev : Option ObsRecord) (now : ℚ)
    (hz : (pages.filter annotatedPage).length = 0) :
    (analyzeBody cfg lastOpened content pages prev now).pages_read =
      if now - (lastOpened : ℚ) / 1000 < 86400 then
        min (analyzeBody cfg lastOpened content pages prev now).total_pages
          (max 1
            ((analyzeBody cfg lastOpened content pages prev now).total_pages /
              4))
      else 0 := by
  cases content with
  | none =>
    simp only [analyzeBody]
    split_ifs <;> simp
  | some c =>
    simp only [analyzeBody, hz]
    by_cases hl : 0 < c.pages.length
    · simp [hl]
    · have h0 : c.pages.length = 0 := by omega
      simp [h0]

/-- Claim C5 witness: a five-page document, no annotated pages, opened
within 24 hours of a pass at `now = 1000`. -/
theorem c5_fallback_pages_read_witness :
    (([] : List PageData).filter annotatedPage).length = 0 ∧
    (analyzeBody cfgDefault 0 (some contentFive) [] none 1000).pages_read =
      if (1000 : ℚ) - ((0 : Int) : ℚ) / 1000 < 86400 then
        min (analyzeBody cfgDefault 0 (some contentFive) [] none
            1000).total_pages
          (max 1
            ((analyzeBody cfgDefault 0 (some contentFive) [] none
                1000).total_pages / 4))
      else 0 :=
  ⟨by decide, c5_fallback_pages_read cfgDefault 0 (some contentFive) [] none
    1000 (by decide)⟩

/-- Claim C6: when `last_opened` only advances between two successive
analyses — the second analysis receiving as its prior record exactly the
observation the pass stores from the first — the accumulated `reading_time`
never decreases (lines 206-216 together with the state write of
lines 456-462). -/
theorem c6_reading_time_monotone (cfg1 : Config) (lo1 : Int)
    (content1 : Option ContentD) (pages1 : List PageData)
    (prev1 : Option ObsRecord) (now1 : ℚ) (cfg2 : Config) (lo2 : Int)
    (content2 : Option ContentD) (pages2 : List PageData) (now2 : ℚ) (t : Int)
    (_h : (analyzeBody cfg1 lo1 content1 pages1 prev1 now1).last_opened ≤
      lo2) :
    (analyzeBody cfg1 lo1 content1 pages1 prev1 now1).reading_time ≤
      (analyzeBody cfg2 lo2 content2 pages2
        (some (obsOf (analyzeBody cfg1 lo1 content1 pages1 prev1 now1) t))
        now2).reading_time := by
  rw [analyzeBody_reading_time_some]
  simp only [obsOf]
  split_ifs with hlt
  · rcases min_cases (3600 : Int)
      (lo2 - (analyzeBody cfg1 lo1 content1 pages1 prev1 now1).last_opened)
      with ⟨he, _⟩ | ⟨he, _⟩ <;> omega
  · exact le_refl _

/-- Claim C6 witness: first analysis with no prior record at
`last_opened = 0`, second analysis at `last_opened = 5000`. -/
theorem c6_reading_time_monotone_witness :
    (analyzeBody cfgDefault 0 none [] none 0).last_opened ≤ 5000 ∧
    (analyzeBody cfgDefault 0 none [] none 0).reading_time ≤
      (analyzeBody cfgDefault 5000 none [] (some
        (obsOf (analyzeBody cfgDefault 0 none [] none 0) 77)) 9).reading_time :=
  ⟨by decide, c6_reading_time_monotone cfgDefault 0 none [] none 0 cfgDefault
    5000 none [] 9 77 (by decide)⟩

/-- Claim C2, code evaluation at the failing input: with a prior record at
`last_opened = 0` and `reading_time = 0`, and the document's `last_opened`
advanced to `1000` (milliseconds, i.e. one elapsed second), line 213 adds
`min(3600, 1000) = 1000` — the raw millisecond delta — instead of the one
elapsed second the claim (and the source's own `Max 1 hour per session`
comment and seconds-based `time_threshold`) call for. -/
theorem c2_session_delta_eval :
    (analyzeBody cfgDefault 1000 none [] (some obsZero) 7).reading_time =
      1000 ∧
    (analyzeBody cfgDefault 1000 none [] (some obsZero) 7).reading_time ≠
      obsZero.reading_time +
        min 3600 ((1000 - obsZero.last_opened) / 1000) := by
  decide

/-- Claim C8: the analyzer is total — a malformed `lastOpened` field is
caught and the zero-default analysis is returned (lines 151-164 and 230-233),
and an unavailable content descriptor degrades every content-derived field to
its zero value (lines 167-204). -/
theorem c8_analyzer_total_degrades (cfg : Config) (raw : RawIntField)
    (content : Option ContentD) (pages : List PageData)
    (prev : Option ObsRecord) (now : ℚ) :
    (raw = RawIntField.malformed →
      analyze_reading_progress cfg raw content pages prev now = zeroAnalysis) ∧
    (content = none →
      (analyze_reading_progress cfg raw content pages prev now).total_pages =
        0 ∧
      (analyze_reading_progress cfg raw content pages prev now).pages_read =
        0 ∧
      (analyze_reading_progress cfg raw content pages prev
        now).completion_ratio = 0 ∧
      (analyze_reading_progress cfg raw content pages prev
        now).has_annotations = false ∧
      (analyze_reading_progress cfg raw content pages prev
        now).has_bookmarks = false) := by
  constructor
  · rintro rfl
    simp [analyze_reading_progress, parseIntField]
  · rintro rfl
    cases raw with
    | malformed =>
      simp [analyze_reading_progress, parseIntField, zeroAnalysis]
    | intVal lo =>
      simp [analyze_reading_progress, parseIntField, analyzeBody]

/-- Claim C8 witness: malformed `lastOpened` together with unavailable
content. -/
theorem c8_analyzer_total_degrades_witness :
    (analyze_reading_progress cfgDefault RawIntField.malformed none [] none 0 =
      zeroAnalysis) ∧
    (analyze_reading_progress cfgDefault RawIntField.malformed none [] none
      0).total_pages = 0 :=
  ⟨(c8_analyzer_total_degrades cfgDefault RawIntField.malformed none [] none
      0).1 rfl,
    ((c8_analyzer_total_degrades cfgDefault RawIntField.malformed none [] none
      0).2 rfl).1⟩

/-- Claim C10: a document with unavailable content (`total_pages = 0`,
`completion_ratio = 0`) is still judged `likely_read` once its accumulated
`reading_time` reaches `time_threshold`, and under the default configuration
it is then moved out of `to_read` (transition to `read`). -/
theorem c10_no_content_still_read :
    (analyzeBody cfgDefault 0 none [] (some obsTime300) 1000).total_pages =
      0 ∧
    (analyzeBody cfgDefault 0 none [] (some obsTime300)
      1000).completion_ratio = 0 ∧
    (analyzeBody cfgDefault 0 none [] (some obsTime300) 1000).likely_read =
      true ∧
    should_move_to_read_folder cfgDefault
      (analyzeBody cfgDefault 0 none [] (some obsTime300) 1000) = true ∧
    decideTarget cfgDefault snapToRead [] "d"
      (analyzeBody cfgDefault 0 none [] (some obsTime300) 1000) 1000 =
      some FolderRole.read := by
  have ha : analyzeBody cfgDefault 0 none [] (some obsTime300) 1000 =
      { pages_read := 0, total_pages := 0, has_annotations := false
        has_bookmarks := false, last_opened := 0, reading_time := 300
        completion_ratio := 0, likely_read := true } := by
    norm_num [analyzeBody, obsTime300, obsZero, cfgDefault]
  rw [ha]
  refine ⟨rfl, rfl, rfl, rfl, ?_⟩
  decide

theorem find_folder_id_eq_none_iff (folderName : String) (s : Store) :
    find_folder_id folderName s = none ↔
      ∀ e ∈ s, roleFolderPred folderName e = false := by
  simp [find_folder_id, List.find?_eq_none]

theorem find_folder_id_upsert_of_none (folderName f : String) (M : Meta)
    (s : Store) (hs : ∀ e ∈ s, roleFolderPred folderName e = false)
    (hp : roleFolderPred folderName (f, M) = true) :
    find_folder_id folderName (upsert s f M) = some f := by
  simp [find_folder_id, find?_upsert_of_none _ _ _ _ hs hp]

theorem roleFolderPred_folderMeta (folderName f : String) (n : Int) :
    roleFolderPred folderName (f, folderMeta folderName n) = true := by
  simp [roleFolderPred, folderMeta]

theorem liveRoleCount_pos_of_find (folderName : String) (s : Store)
    (i : String) (h : find_folder_id folderName s = some i) :
    1 ≤ liveRoleCount s folderName := by
  unfold find_folder_id at h
  cases hfind : s.find? (roleFolderPred folderName) with
  | none => rw [hfind] at h; cases h
  | some x =>
    have hmem := List.mem_of_find?_eq_some hfind
    have hpx := List.find?_some hfind
    unfold liveRoleCount
    exact List.countP_pos_iff.mpr ⟨x, hmem, hpx⟩

/-- Claim C3: role-folder resolution is idempotent — resolving the same role
name twice (`find_folder_id` + `create_folder`, combined per the spec's
`resolve_or_create`) yields the same identifier and leaves the store of the
first resolution unchanged; and starting from a store with at most one live
Collection of that name, every number of further passes leaves exactly one. -/
theorem c3_resolve_idempotent (s : Store) (folderName f1 f2 : String)
    (n1 n2 : Int) :
    (resolve_or_create folderName f2 n2
        (resolve_or_create folderName f1 n1 s).2).1 =
      (resolve_or_create folderName f1 n1 s).1 ∧
    (resolve_or_create folderName f2 n2
        (resolve_or_create folderName f1 n1 s).2).2 =
      (resolve_or_create folderName f1 n1 s).2 ∧
    (liveRoleCount s folderName ≤ 1 →
      liveRoleCount (resolve_or_create folderName f1 n1 s).2 folderName = 1 ∧
      ∀ fs : List (String × Int),
        liveRoleCount
          (fs.foldl
            (fun st fi => (resolve_or_create folderName fi.1 fi.2 st).2)
            (resolve_or_create folderName f1 n1 s).2) folderName = 1) := by
  cases hf : find_folder_id folderName s with
  | some i =>
    have h2 : ∀ (f : String) (n : Int),
        resolve_or_create folderName f n s = (i, s) := by
      intro f n; simp [resolve_or_create, hf]
    rw [h2 f1 n1]
    have hcount := liveRoleCount_pos_of_find folderName s i hf
    refine ⟨by rw [h2], by rw [h2],
      fun hle => ⟨le_antisymm hle hcount, ?_⟩⟩
    intro fs
    rw [foldl_fixed _ _ (fun fi => by rw [h2 fi.1 fi.2]) fs]
    exact le_antisymm hle hcount
  | none =>
    have hall : ∀ e ∈ s, roleFolderPred folderName e = false :=
      (find_folder_id_eq_none_iff folderName s).mp hf
    have h1 : resolve_or_create folderName f1 n1 s =
        (f1, upsert s f1 (folderMeta folderName n1)) := by
      simp [resolve_or_create, hf, create_folder]
    have hfind2 : find_folder_id folderName
        (upsert s f1 (folderMeta folderName n1)) = some f1 :=
      find_folder_id_upsert_of_none folderName f1 _ s hall
        (roleFolderPred_folderMeta folderName f1 n1)
    have h2 : ∀ (f : String) (n : Int),
        resolve_or_create folderName f n
            (upsert s f1 (folderMeta folderName n1)) =
          (f1, upsert s f1 (folderMeta folderName n1)) := by
      intro f n; simp [resolve_or_create, hfind2]
    have hone : liveRoleCount (upsert s f1 (folderMeta folderName n1))
        folderName = 1 :=
      countP_upsert_of_none _ s f1 _ hall
        (roleFolderPred_folderMeta folderName f1 n1)
    rw [h1]
    refine ⟨by rw [h2], by rw [h2], fun _ => ⟨hone, ?_⟩⟩
    intro fs
    rw [foldl_fixed _ _ (fun fi => by rw [h2 fi.1 fi.2]) fs]
    exact hone

/-- Claim C3 witness: resolving `To Read` twice on an empty store, then one
further pass. -/
theorem c3_resolve_idempotent_witness :
    (resolve_or_create "To Read" "B" 1
        (resolve_or_create "To Read" "A" 0 []).2).1 =
      (resolve_or_create "To Read" "A" 0 []).1 ∧
    liveRoleCount (resolve_or_create "To Read" "A" 0 []).2 "To Read" = 1 ∧
    liveRoleCount
      ([("C", (5 : Int))].foldl
        (fun st fi => (resolve_or_create "To Read" fi.1 fi.2 st).2)
        (resolve_or_create "To Read" "A" 0 []).2) "To Read" = 1 := by
  have h := c3_resolve_idempotent [] "To Read" "A" "B" 0 1
  exact ⟨h.1, (h.2.2 (by decide)).1, (h.2.2 (by decide)).2 [("C", 5)]⟩

/-- Claim C9 counterexample: the move operation also flips the moved
document's `modified` and `metadatamodified` flags (lines 306-307), so a
field other than `parent` / `lastModified` changes; and folder creation also
mutates the Document Store (it writes a new metadata file), so move is not
the only mutating operation. -/
theorem c9_claim_counterexample :
    ¬ movePreservesOtherFields ∧ ¬ moveIsOnlyStoreMutation := by
  constructor
  · intro h
    have hx := h [("d", mPlain)] "d" "F" 99 mPlain mPlainMoved (by decide)
      (by decide)
    exact absurd hx.2.2.2.2.2.2.2.1 (by decide)
  · intro h
    exact absurd (h "X" "f" 0 []) (by decide)

/-- Claim C9 (amended): the move operation rewrites the moved document's
`parent` to the destination Collection id, bumps `lastModified`, and sets its
`modified` / `metadatamodified` flags, leaving every other field of that
document and every other document unchanged; a missing document id leaves the
store untouched; and it is the only core operation rewriting an existing
entry — folder creation (with a fresh id) leaves every existing entry
unchanged. -/
theorem c9_move_frame_amended (s : Store) (docId folderId : String)
    (nowMs : Int) (m : Meta) (hm : alookup s docId = some m) :
    alookup (move_document_to_folder docId folderId s s nowMs) docId =
      some { m with
              parent := folderId, lastModified := nowMs
              metadatamodified := true, modified := true } ∧
    (∀ e, e ≠ docId →
      alookup (move_document_to_folder docId folderId s s nowMs) e =
        alookup s e) ∧
    (∀ missingId, alookup s missingId = none →
      move_document_to_folder missingId folderId s s nowMs = s) ∧
    (∀ folderName freshId e, e ≠ freshId →
      alookup (create_folder folderName freshId nowMs s).2 e =
        alookup s e) := by
  refine ⟨?_, ?_, ?_, ?_⟩
  · simp [move_document_to_folder, hm, alookup_upsert_self]
  · intro e he
    simp [move_document_to_folder, hm, alookup_upsert_ne _ _ _ _ he]
  · intro mid hmid
    simp [move_document_to_folder, hmid]
  · intro fn fid e he
    simp [create_folder, alookup_upsert_ne _ _ _ _ he]

/-- Claim C9 witness: moving document `d` of the two-document sample store. -/
theorem c9_move_frame_amended_witness :
    alookup sW9 "d" = some mPlain ∧
    alookup (move_document_to_folder "d" "F" sW9 sW9 99) "d" =
      some { mPlain with
              parent := "F", lastModified := 99
              metadatamodified := true, modified := true } ∧
    alookup (move_document_to_folder "d" "F" sW9 sW9 99) "e" =
      alookup sW9 "e" ∧
    move_document_to_folder "z" "F" sW9 sW9 99 = sW9 ∧
    alookup (create_folder "X" "G" 99 sW9).2 "d" = alookup sW9 "d" := by
  have h := c9_move_frame_amended sW9 "d" "F" 99 mPlain (by decide)
  exact ⟨by decide, h.1, h.2.1 "e" (by decide), h.2.2.1 "z" (by decide),
    h.2.2.2 "X" "G" "d" (by decide)⟩

theorem decideTarget_congr (cfg : Config) (snap : Store)
    (p1 p2 : List String) (docId : String) (a : Analysis) (now : ℚ)
    (h : docId ∈ p1 ↔ docId ∈ p2) :
    decideTarget cfg snap p1 docId a now =
      decideTarget cfg snap p2 docId a now := by
  unfold decideTarget
  cases get_document_current_folder docId snap cfg with
  | none => rfl
  | some loc =>
    cases loc with
    | root => exact if_congr h rfl rfl
    | inRole r => cases r <;> rfl
    | other => rfl

theorem passStep_char (C : PassCtx) (rs0 : RState) (processed0 : List String)
    (S : LoopState) (e : String × Meta)
    (h1 : alookup S.rs e.1 = alookup rs0 e.1)
    (h2 : e.1 ∈ S.processed ↔ e.1 ∈ processed0) :
    (passStep C S e).pc = S.pc +
      (if specTargetOf C rs0 processed0 e = some FolderRole.to_read then 1
        else 0) ∧
    (passStep C S e).mc = S.mc +
      (if specTargetOf C rs0 processed0 e = some FolderRole.read then 1
        else 0) ∧
    (passStep C S e).ac = S.ac +
      (if specTargetOf C rs0 processed0 e = some FolderRole.archive then 1
        else 0) ∧
    (passStep C S e).rs =
      (if eligibleDoc C e then
        upsert S.rs e.1 (obsOf (specAnalysisOf C rs0 e) C.now.floor)
      else S.rs) ∧
    (passStep C S e).moves.map Prod.fst = S.moves.map Prod.fst ++
      (if (specTargetOf C rs0 processed0 e).isSome then [e.1] else []) ∧
    ((passStep C S e).processed = S.processed ∨
      (passStep C S e).processed = e.1 :: S.processed) := by
  by_cases hart : is_article_document C.cfg e.2
  case neg =>
    have helig : eligibleDoc C e = false := by simp [eligibleDoc, hart]
    simp [passStep, hart, specTargetOf, helig]
  case pos =>
  by_cases hage : C.now - (e.2.lastModified : ℚ) / 1000 <
      C.cfg.file_age_threshold * 60
  case pos =>
    have helig : eligibleDoc C e = false := by simp [eligibleDoc, hart, hage]
    simp [passStep, hart, hage, specTargetOf, helig]
  case neg =>
    have helig : eligibleDoc C e = true := by simp [eligibleDoc, hart, hage]
    have ha : analyzeBody C.cfg e.2.lastOpened (C.contentOf e.1)
        (C.pagesOf e.1) (alookup S.rs e.1) C.now = specAnalysisOf C rs0 e := by
      rw [specAnalysisOf, h1]
    have hdt : decideTarget C.cfg C.snap S.processed e.1
        (specAnalysisOf C rs0 e) C.now = specTargetOf C rs0 processed0 e := by
      rw [specTargetOf, if_pos helig]
      exact decideTarget_congr C.cfg C.snap S.processed processed0 e.1
        (specAnalysisOf C rs0 e) C.now h2
    cases hT : specTargetOf C rs0 processed0 e with
    | none =>
      have hdt' := hdt.trans hT
      simp [passStep, hart, hage, hdt', ha, helig]
    | some r =>
      have hdt' := hdt.trans hT
      cases r <;>
        simp [passStep, hart, hage, hdt', ha, helig]

theorem passLoop_char (C : PassCtx) (rs0 : RState) (processed0 : List String) :
    ∀ (l : List (String × Meta)) (S : LoopState),
      (l.map Prod.fst).Nodup →
      (∀ e ∈ l, alookup S.rs e.1 = alookup rs0 e.1) →
      (∀ e ∈ l, e.1 ∈ S.processed ↔ e.1 ∈ processed0) →
      (List.foldl (passStep C) S l).pc =
        S.pc + l.countP (fun e =>
          decide (specTargetOf C rs0 processed0 e =
            some FolderRole.to_read)) ∧
      (List.foldl (passStep C) S l).mc =
        S.mc + l.countP (fun e =>
          decide (specTargetOf C rs0 processed0 e = some FolderRole.read)) ∧
      (List.foldl (passStep C) S l).ac =
        S.ac + l.countP (fun e =>
          decide (specTargetOf C rs0 processed0 e =
            some FolderRole.archive)) ∧
      (List.foldl (passStep C) S l).rs = specRsFold C rs0 l S.rs ∧
      (List.foldl (passStep C) S l).moves.map Prod.fst =
        S.moves.map Prod.fst ++
          (l.filter fun e =>
            (specTargetOf C rs0 processed0 e).isSome).map Prod.fst := by
  intro l
  induction l with
  | nil =>
    intro S _ _ _
    simp [specRsFold]
  | cons e t ih =>
    intro S hnd h1 h2
    rw [List.map_cons] at hnd
    have hndt : (t.map Prod.fst).Nodup := (List.nodup_cons.mp hnd).2
    have hne : e.1 ∉ t.map Prod.fst := (List.nodup_cons.mp hnd).1
    obtain ⟨hpc, hmc, hac, hrs, hmoves, hproc⟩ :=
      passStep_char C rs0 processed0 S e (h1 e (List.mem_cons_self e t))
        (h2 e (List.mem_cons_self e t))
    have h1' : ∀ e' ∈ t, alookup (passStep C S e).rs e'.1 = alookup rs0 e'.1 := by
      intro e' he'
      have hne' : e'.1 ≠ e.1 := fun hq =>
        hne (hq ▸ List.mem_map.mpr ⟨e', he', rfl⟩)
      rw [hrs]
      by_cases helig : eligibleDoc C e
      · rw [if_pos helig, alookup_upsert_ne _ _ _ _ hne']
        exact h1 e' (List.mem_cons_of_mem e he')
      · rw [if_neg helig]
        exact h1 e' (List.mem_cons_of_mem e he')
    have h2' : ∀ e' ∈ t,
        (e'.1 ∈ (passStep C S e).processed ↔ e'.1 ∈ processed0) := by
      intro e' he'
      have hne' : e'.1 ≠ e.1 := fun hq =>
        hne (hq ▸ List.mem_map.mpr ⟨e', he', rfl⟩)
      rcases hproc with hp | hp <;> rw [hp]
      · exact h2 e' (List.mem_cons_of_mem e he')
      · rw [List.mem_cons]
        constructor
        · rintro (hq | hq)
          · exact absurd hq hne'
          · exact (h2 e' (List.mem_cons_of_mem e he')).mp hq
        · intro hq
          exact Or.inr ((h2 e' (List.mem_cons_of_mem e he')).mpr hq)
    obtain ⟨ipc, imc, iac, irs, imoves⟩ := ih (passStep C S e) hndt h1' h2'
    rw [List.foldl_cons]
    refine ⟨?_, ?_, ?_, ?_, ?_⟩
    · rw [ipc, hpc, List.countP_cons]
      simp only [decide_eq_true_eq]
      split_ifs <;> omega
    · rw [imc, hmc, List.countP_cons]
      simp only [decide_eq_true_eq]
      split_ifs <;> omega
    · rw [iac, hac, List.countP_cons]
      simp only [decide_eq_true_eq]
      split_ifs <;> omega
    · rw [irs, hrs]
      rfl
    · rw [imoves, hmoves, List.filter_cons]
      by_cases hsome : (specTargetOf C rs0 processed0 e).isSome
      · simp [hsome, List.append_assoc]
      · simp [hsome]

/-- Claim C1: one invocation of `process_new_articles` enumerates the whole
metadata snapshot, applies the eligibility gate, runs the analysis and at most
one transition per eligible document (the move log holds exactly one entry
per transitioning document, and its document ids are duplicate-free), updates
the reading state for exactly the eligible documents, persists it once at the
end (the saved state equals the end-of-loop state), and produces the three
aggregate counters as the number of `root` documents newly routed to
`to_read`, of `to_read` documents judged read, and of `read` documents
archived. -/
theorem c1_pass_structure (cfg : Config) (disk0 : Store) (rs0 : RState)
    (processed0 : List String) (contentOf : String → Option ContentD)
    (pagesOf : String → List PageData) (fmtDate : Int → String)
    (nowDateStr : String) (fresh : Nat → String) (now : ℚ) (nowMs : Int)
    (hnd : (disk0.map Prod.fst).Nodup) :
    let C := passCtxOf cfg disk0 contentOf pagesOf fmtDate nowDateStr fresh
      now nowMs
    let R := process_new_articles cfg disk0 rs0 processed0 contentOf pagesOf
      fmtDate nowDateStr fresh now nowMs
    R.processedCount = disk0.countP (fun e =>
      decide (specTargetOf C rs0 processed0 e = some FolderRole.to_read)) ∧
    R.movedToReadCount = disk0.countP (fun e =>
      decide (specTargetOf C rs0 processed0 e = some FolderRole.read)) ∧
    R.archivedCount = disk0.countP (fun e =>
      decide (specTargetOf C rs0 processed0 e = some FolderRole.archive)) ∧
    R.savedState = R.readingState ∧
    R.readingState = specRsFold C rs0 disk0 rs0 ∧
    R.moves.map Prod.fst = (disk0.filter fun e =>
      (specTargetOf C rs0 processed0 e).isSome).map Prod.fst ∧
    (R.moves.map Prod.fst).Nodup := by
  intro C R
  obtain ⟨hpc, hmc, hac, hrs, hmoves⟩ := passLoop_char C rs0 processed0 disk0
    { disk := (ensureFoldersExist cfg disk0 disk0 fresh 0 nowMs).2.1
      rs := rs0
      processed := processed0
      k := (ensureFoldersExist cfg disk0 disk0 fresh 0 nowMs).2.2
      pc := 0, mc := 0, ac := 0, moves := [] } hnd (fun _ _ => rfl)
    (fun _ _ => Iff.rfl)
  have hsub : List.Sublist
      ((disk0.filter fun e =>
        (specTargetOf C rs0 processed0 e).isSome).map Prod.fst)
      (disk0.map Prod.fst) :=
    List.Sublist.map Prod.fst (List.filter_sublist disk0)
  refine ⟨by simpa using hpc, by simpa using hmc, by simpa using hac, rfl,
    by simpa using hrs, by simpa using hmoves, ?_⟩
  have : R.moves.map Prod.fst = (disk0.filter fun e =>
      (specTargetOf C rs0 processed0 e).isSome).map Prod.fst := by
    simpa using hmoves
  rw [this]
  exact List.Nodup.sublist hsub hnd

/-- Claim C1 witness: a pass over the empty store. -/
theorem c1_pass_structure_witness :
    (([] : Store).map Prod.fst).Nodup ∧
    ((process_new_articles cfgDefault [] [] [] contentNone pagesNone fmtConst
        "D" freshConst 1000 123).processedCount =
      ([] : Store).countP (fun e =>
        decide (specTargetOf (passCtxOf cfgDefault [] contentNone pagesNone
            fmtConst "D" freshConst 1000 123) [] [] e =
          some FolderRole.to_read)) ∧
    (process_new_articles cfgDefault [] [] [] contentNone pagesNone fmtConst
        "D" freshConst 1000 123).savedState =
      (process_new_articles cfgDefault [] [] [] contentNone pagesNone fmtConst
        "D" freshConst 1000 123).readingState ∧
    (process_new_articles cfgDefault [] [] [] contentNone pagesNone fmtConst
        "D" freshConst 1000 123).readingState =
      specRsFold (passCtxOf cfgDefault [] contentNone pagesNone fmtConst "D"
        freshConst 1000 123) [] [] []) := by
  have h := c1_pass_structure cfgDefault [] [] [] contentNone pagesNone
    fmtConst "D" freshConst 1000 123 (by decide)
  exact ⟨by decide, h.1, h.2.2.2.1, h.2.2.2.2.1⟩

theorem organize_preserves (C : PassCtx) (folderId : String) (docMeta : Meta)
    (disk : Store) (k : Nat) (y : String) (hf : ∀ n, C.fresh n ≠ y) :
    alookup (organize_by_date_if_enabled C folderId docMeta disk k).2.1 y =
      alookup disk y := by
  unfold organize_by_date_if_enabled
  by_cases ho : C.cfg.organize_by_date
  · rw [if_neg (by simp [ho])]
    split
    · rfl
    · simp only [create_date_folder]
      exact alookup_upsert_ne _ _ _ _ (Ne.symm (hf k))
  · rw [if_pos (by simp [ho])]

theorem move_preserves_ne (docId folderId : String) (snap disk : Store)
    (nowMs : Int) (y : String) (h : docId ≠ y) :
    alookup (move_document_to_folder docId folderId snap disk nowMs) y =
      alookup disk y := by
  unfold move_document_to_folder
  cases alookup snap docId with
  | none => rfl
  | some m => exact alookup_upsert_ne _ _ _ _ (Ne.symm h)

theorem resolveRole_preserves (folderName : String) (snap disk : Store)
    (freshId : String) (nowMs : Int) (y : String) (h : freshId ≠ y) :
    alookup (resolveRole folderName snap disk freshId nowMs).2.1 y =
      alookup disk y := by
  unfold resolveRole
  cases find_folder_id folderName snap with
  | some i => rfl
  | none =>
    simp only [create_folder]
    exact alookup_upsert_ne _ _ _ _ (Ne.symm h)

theorem ensure_preserves (cfg : Config) (snap disk : Store)
    (fresh : Nat → String) (k : Nat) (nowMs : Int) (y : String)
    (hf : ∀ n, fresh n ≠ y) :
    alookup (ensureFoldersExist cfg snap disk fresh k nowMs).2.1 y =
      alookup disk y := by
  unfold ensureFoldersExist
  rw [resolveRole_preserves _ _ _ _ _ _ (hf _),
    resolveRole_preserves _ _ _ _ _ _ (hf _),
    resolveRole_preserves _ _ _ _ _ _ (hf _)]

theorem passStep_disk_preserve (C : PassCtx) (y : String) (S : LoopState)
    (e : String × Meta) (he : eligibleDoc C e = true → e.1 ≠ y)
    (hf : ∀ n, C.fresh n ≠ y) :
    alookup (passStep C S e).disk y = alookup S.disk y := by
  by_cases hart : is_article_document C.cfg e.2
  case neg => simp [passStep, hart]
  case pos =>
  by_cases hage : C.now - (e.2.lastModified : ℚ) / 1000 <
      C.cfg.file_age_threshold * 60
  case pos => simp [passStep, hart, hage]
  case neg =>
    have hne : e.1 ≠ y := he (by simp [eligibleDoc, hart, hage])
    simp only [passStep, hart, hage]
    simp only [Bool.not_true, Bool.false_eq_true, if_false, decide_eq_true_eq,
      if_neg hage]
    split
    · rfl
    · rw [move_preserves_ne _ _ _ _ _ _ hne,
        organize_preserves C _ _ _ _ _ hf]

theorem passLoop_disk_preserve (C : PassCtx) (y : String)
    (hf : ∀ n, C.fresh n ≠ y) :
    ∀ (l : List (String × Meta)) (S : LoopState),
      (∀ e ∈ l, eligibleDoc C e = true → e.1 ≠ y) →
      alookup (List.foldl (passStep C) S l).disk y = alookup S.disk y
  | [], _, _ => rfl
  | e :: t, S, h => by
    rw [List.foldl_cons,
      passLoop_disk_preserve C y hf t (passStep C S e)
        (fun e' he' => h e' (List.mem_cons_of_mem e he')),
      passStep_disk_preserve C y S e (h e (List.mem_cons_self e t)) hf]

/-- Claim C7: a document whose age since last modification is strictly below
`file_age_threshold` minutes at the start of the pass is skipped by the gate
(lines 447-450) and its metadata — in particular its parent — is untouched by
the whole pass (moves only target gated documents; folder creation only adds
fresh entries). -/
theorem c7_age_gate_no_move (cfg : Config) (disk0 : Store) (rs0 : RState)
    (processed0 : List String) (contentOf : String → Option ContentD)
    (pagesOf : String → List PageData) (fmtDate : Int → String)
    (nowDateStr : String) (fresh : Nat → String) (now : ℚ) (nowMs : Int)
    (docId : String) (m : Meta)
    (hnd : (disk0.map Prod.fst).Nodup)
    (hf : ∀ n, fresh n ∉ disk0.map Prod.fst)
    (hm : (docId, m) ∈ disk0)
    (hyoung : now - (m.lastModified : ℚ) / 1000 <
      cfg.file_age_threshold * 60) :
    alookup (process_new_articles cfg disk0 rs0 processed0 contentOf pagesOf
      fmtDate nowDateStr fresh now nowMs).disk docId = some m := by
  have hkey : docId ∈ disk0.map Prod.fst := List.mem_map.mpr ⟨(docId, m), hm, rfl⟩
  have hfny : ∀ n, fresh n ≠ docId := fun n hq => hf n (hq ▸ hkey)
  have helig : ∀ e ∈ disk0,
      eligibleDoc (passCtxOf cfg disk0 contentOf pagesOf fmtDate nowDateStr
        fresh now nowMs) e = true → e.1 ≠ docId := by
    intro e he hel heq
    have hem : (docId, e.2) ∈ disk0 := by
      rw [← heq]
      exact he
    have he2 : e.2 = m := keyval_unique hnd hem hm
    rw [eligibleDoc, Bool.and_eq_true] at hel
    have := hel.2
    rw [he2] at this
    simp only [passCtxOf, Bool.not_eq_true', decide_eq_false_iff_not] at this
    exact this hyoung
  show alookup (List.foldl
    (passStep (passCtxOf cfg disk0 contentOf pagesOf fmtDate nowDateStr fresh
      now nowMs))
    { disk := (ensureFoldersExist cfg disk0 disk0 fresh 0 nowMs).2.1
      rs := rs0
      processed := processed0
      k := (ensureFoldersExist cfg disk0 disk0 fresh 0 nowMs).2.2
      pc := 0, mc := 0, ac := 0, moves := [] } disk0).disk docId = some m
  rw [passLoop_disk_preserve _ docId hfny disk0 _ helig]
  show alookup (ensureFoldersExist cfg disk0 disk0 fresh 0 nowMs).2.1 docId =
    some m
  rw [ensure_preserves cfg disk0 disk0 fresh 0 nowMs docId hfny]
  exact alookup_of_mem_nodup hnd hm

/-- Claim C7 witness: a single too-young article; the pass leaves its
metadata untouched. -/
theorem c7_age_gate_no_move_witness :
    (snapC7.map Prod.fst).Nodup ∧
    (∀ n : Nat, freshConst n ∉ snapC7.map Prod.fst) ∧
    ("y", mYoung) ∈ snapC7 ∧
    ((1000 : ℚ) - (mYoung.lastModified : ℚ) / 1000 <
      cfgDefault.file_age_threshold * 60) ∧
    alookup (process_new_articles cfgDefault snapC7 [] [] contentNone pagesNone
      fmtConst "D" freshConst 1000 123).disk "y" = some mYoung := by
  refine ⟨by decide, by intro n; simp only [freshConst]; decide, by decide,
    ?_, ?_⟩
  · norm_num [mYoung, mArticle, cfgDefault]
  · exact c7_age_gate_no_move cfgDefault snapC7 [] [] contentNone pagesNone
      fmtConst "D" freshConst 1000 123 "y" mYoung (by decide)
      (by intro n; simp only [freshConst]; decide) (by decide)
      (by norm_num [mYoung, mArticle, cfgDefault])
